import Mathlib

/-!
Verification of the configuration layer and the spec-level delivery model of
the `prometheus.remote.queue` component (file
`internal/component/prometheus/remote/queue/types.go`).

Go `time.Duration` is an integer count of nanoseconds; we embed it as `Int`.
Go `int` becomes `Int`, Go `uint` becomes `Nat`.  The map
`map[string]string` used for external labels is carried around opaquely as an
association list.
-/

namespace Queue

/-- One second, as a Go `time.Duration` (nanoseconds). -/
def secondNs : Int := 1000000000

/-- One hour in nanoseconds. -/
def hourNs : Int := 3600 * secondNs

/-- Modelled from the spec: the opaque secret wrapper `alloytypes.Secret`.
Its definition lives outside the repository sources (only its use in
`types.go` is present); the spec describes it as a distinct redacted-string
type whose value is obtained only through an explicit accessor, while default
string conversion and debug formatting never reveal it.  `reveal` is the
explicit accessor (the Go conversion `string(secret)` at the send site). -/
structure Secret where
  reveal : String
deriving DecidableEq, Repr

/-- Modelled from the spec: the redacted default string conversion / debug
formatting of a `Secret`.  It is constant, independent of the wrapped
value. -/
def Secret.display (_s : Secret) : String := "(secret)"

/-- Structure `BasicAuth` from `types.go`: username plus opaque secret password. -/
structure BasicAuth where
  Username : String
  Password : Secret
deriving DecidableEq, Repr

/-- Structure `Serialization` block from `types.go`. -/
structure Serialization where
  MaxSignalsToBatch : Int
  BatchFrequency : Int
deriving DecidableEq, Repr

/-- Structure `EndpointConfig` from `types.go` (the alloy-side connection config). -/
structure EndpointConfig where
  Name : String
  URL : String
  BasicAuth : Option BasicAuth
  Timeout : Int
  RetryBackoff : Int
  MaxRetryBackoffAttempts : Nat
  BatchCount : Int
  FlushFrequency : Int
  QueueCount : Nat
  ExternalLabels : List (String × String)
deriving DecidableEq, Repr

/-- Structure `Arguments` from `types.go`. -/
structure Arguments where
  TTL : Int
  Serialization : Serialization
  Endpoints : List EndpointConfig
deriving DecidableEq, Repr

/-- Function `defaultArgs` from `types.go`: TTL two hours, batch size 10000, batch
frequency five seconds; the `Endpoints` slice is the Go zero value (nil). -/
def defaultArgs : Arguments :=
  { TTL := 2 * hourNs
    Serialization :=
      { MaxSignalsToBatch := 10000
        BatchFrequency := 5 * secondNs }
    Endpoints := [] }

/-- Method `(*Arguments).SetToDefault` from `types.go`: `*rc = defaultArgs()`,
replacing the whole value. -/
def Arguments.SetToDefault (_rc : Arguments) : Arguments := defaultArgs

/-- Function `defaultEndpointConfig` from `types.go`; fields not named in the Go
composite literal take their zero values (`""`, `nil`). -/
def defaultEndpointConfig : EndpointConfig :=
  { Name := ""
    URL := ""
    BasicAuth := none
    Timeout := 30 * secondNs
    RetryBackoff := 1 * secondNs
    MaxRetryBackoffAttempts := 0
    BatchCount := 1000
    FlushFrequency := 1 * secondNs
    QueueCount := 4
    ExternalLabels := [] }

/-- Method `(*EndpointConfig).SetToDefault` from `types.go`. -/
def EndpointConfig.SetToDefault (_cc : EndpointConfig) : EndpointConfig :=
  defaultEndpointConfig

/-- The loop body of `(*Arguments).Validate` from `types.go`, checking the
endpoints in order and returning the first error message. -/
def validateEndpoints : List EndpointConfig → Option String
  | [] => none
  | conn :: rest =>
    if conn.BatchCount ≤ 0 then
      some "batch_count must be greater than 0"
    else if conn.FlushFrequency < 1 * secondNs then
      some "flush_frequency must be greater or equal to 1s, the internal timers resolution is 1s"
    else
      validateEndpoints rest

/-- Method `(*Arguments).Validate` from `types.go`: `none` means the Go method
returned `nil`, `some msg` an error. -/
def Arguments.Validate (r : Arguments) : Option String :=
  validateEndpoints r.Endpoints

/-- Method `(*Arguments).Validate` has a pointer receiver, so we also record its
state effect: the body only reads `r.Endpoints`, performing no assignment
through the receiver, so the state out is the state in. -/
def Arguments.ValidateSt (r : Arguments) : Arguments × Option String :=
  (r, r.Validate)

/-- Structure `types.BasicAuth` (package `queue/types`, outside the given
sources): the native credentials carry the password as a plain string, as the
conversion `string(cc.BasicAuth.Password)` in `ToNativeType` shows. -/
structure NativeBasicAuth where
  Username : String
  Password : String
deriving DecidableEq, Repr

/-- Structure `types.ConnectionConfig` (package `queue/types`, outside the given
sources); its fields are reconstructed from the composite literal in
`ToNativeType`, the only place the given sources build one. -/
structure ConnectionConfig where
  URL : String
  UserAgent : String
  Timeout : Int
  RetryBackoff : Int
  MaxRetryBackoffAttempts : Nat
  BatchCount : Int
  FlushFrequency : Int
  ExternalLabels : List (String × String)
  Connections : Nat
  BasicAuth : Option NativeBasicAuth
deriving DecidableEq, Repr

/-- Method `EndpointConfig.ToNativeType` from `types.go`.  The Go function reads the
package-level variable `UserAgent = fmt.Sprintf("Alloy/%s", version.Version)`;
that ambient global is made an explicit argument `userAgent` here.  The
`BasicAuth` pointer is copied field-wise when non-nil, converting the secret
password to a plain string with the explicit accessor. -/
def EndpointConfig.ToNativeType (cc : EndpointConfig) (userAgent : String) :
    ConnectionConfig :=
  let tcc : ConnectionConfig :=
    { URL := cc.URL
      UserAgent := userAgent
      Timeout := cc.Timeout
      RetryBackoff := cc.RetryBackoff
      MaxRetryBackoffAttempts := cc.MaxRetryBackoffAttempts
      BatchCount := cc.BatchCount
      FlushFrequency := cc.FlushFrequency
      ExternalLabels := cc.ExternalLabels
      Connections := cc.QueueCount
      BasicAuth := none }
  match cc.BasicAuth with
  | none => tcc
  | some ba =>
    { tcc with BasicAuth := some { Username := ba.Username, Password := ba.Password.reveal } }

/-- Modelled from the spec: validation failure is fatal at startup, the
engine does not start (§7 ConfigValidationError, §6 "Validation fails fast
(before the engine starts)").  The engine-startup code is outside the given
sources. -/
def engineStarts (r : Arguments) : Bool :=
  r.Validate.isNone

/-- Modelled from the spec: a sample (§3), reduced to the fields the TTL
filter inspects — a series identifier and a timestamp.  The appender code is
outside the given sources. -/
structure Sample where
  seriesId : Nat
  ts : Int
deriving DecidableEq, Repr

/-- Modelled from the spec: the drop reasons of the Appender Adapter
contract `append(series, sample) -> Accepted | Dropped(reason)` (§4.1). -/
inductive DropReason where
  | StaleSample
deriving DecidableEq, Repr

/-- Modelled from the spec: the result of the Appender Adapter contract
(§4.1). -/
inductive AppendResult where
  | Accepted
  | Dropped (reason : DropReason)
deriving DecidableEq, Repr

/-- Modelled from the spec: the TTL filter of the Appender Adapter (§4.1):
the sample timestamp must be within the window from `now - ttl` to `now`,
else the result is `Dropped(StaleSample)`. -/
def appendCheck (ttl now : Int) (s : Sample) : AppendResult :=
  if now - ttl ≤ s.ts ∧ s.ts ≤ now then .Accepted else .Dropped .StaleSample

/-- Modelled from the spec: the ingestion-side state of one shard — the
active batch being built and the persisted sealed batches (§4.3, §4.4). -/
structure PipeState where
  buffer : List Sample
  persisted : List (List Sample)
deriving DecidableEq, Repr

/-- Modelled from the spec: an accepted sample is routed into the active
batch; a dropped sample leaves the state untouched (§4.1, §4.3). -/
def appendStep (ttl now : Int) (st : PipeState) (s : Sample) :
    PipeState × AppendResult :=
  match appendCheck ttl now s with
  | .Accepted => ({ st with buffer := st.buffer ++ [s] }, .Accepted)
  | .Dropped r => (st, .Dropped r)

/-- Modelled from the spec: the events one shard's ingestion side sees — an
append attempt at wall-clock time `now`, or a flush sealing the active batch
into the durable queue (§4.3). -/
inductive PEvent where
  | append (now : Int) (s : Sample)
  | sealBatch
deriving DecidableEq, Repr

/-- Modelled from the spec: the effect of one ingestion event on the shard
state; sealing moves the active batch into the persisted queue and starts a
fresh batch (§4.3, §4.4). -/
def pstep (ttl : Int) (st : PipeState) : PEvent → PipeState
  | .append now s => (appendStep ttl now st s).1
  | .sealBatch => { buffer := [], persisted := st.persisted ++ [st.buffer] }

/-- Modelled from the spec: running a sequence of ingestion events. -/
def prun (ttl : Int) : List PEvent → PipeState → PipeState
  | [], st => st
  | e :: rest, st => prun ttl rest (pstep ttl st e)

/-- Modelled from the spec: `allStaleFor ttl s events` holds when every
append of the sample `s` among `events` happens at a time `now` with
`s.ts < now - ttl`, i.e. the sample is older than the TTL at each of its
append attempts. -/
def allStaleFor (ttl : Int) (s : Sample) : List PEvent → Bool
  | [] => true
  | .append t s' :: rest =>
    (if s' = s then decide (s.ts < t - ttl) else true) && allStaleFor ttl s rest
  | .sealBatch :: rest => allStaleFor ttl s rest

/-- Modelled from the spec: the actions of one Delivery Worker over one
shard's durable queue (§4.4, §4.5): `deq` takes the oldest batch (which
stays durably queued), `send` delivers it to the endpoint, `ack` removes it
from the durable queue, and `crash` loses the in-memory in-flight state while
the durable queue survives. -/
inductive QAct where
  | deq
  | send
  | ack
  | crash
deriving DecidableEq, Repr

/-- Modelled from the spec: the state of one (shard, endpoint) delivery
pipeline — the durable FIFO of batch ids, the worker's in-flight batch with
its sent flag, and the log of batches received by the endpoint. -/
structure QState where
  queued : List Nat
  inflight : Option (Nat × Bool)
  delivered : List Nat
deriving DecidableEq, Repr

/-- Modelled from the spec: one delivery action.  A batch is removed from
the durable queue only on `ack`, which requires the batch to have been sent
(§4.4 "a batch leaves the durable queue only after a positive delivery
acknowledgment"); a crash clears only the volatile in-flight state (§4.5
shutdown / §3 durability). -/
def qstep : QAct → QState → Option QState
  | .deq, st =>
    match st.inflight, st.queued with
    | none, b :: _ => some { st with inflight := some (b, false) }
    | _, _ => none
  | .send, st =>
    match st.inflight with
    | some (b, false) =>
      some { st with inflight := some (b, true), delivered := st.delivered ++ [b] }
    | _ => none
  | .ack, st =>
    match st.inflight, st.queued with
    | some (b, true), b' :: rest =>
      if b = b' then some { st with inflight := none, queued := rest } else none
    | _, _ => none
  | .crash, st => some { st with inflight := none }

/-- Modelled from the spec: running a sequence of delivery actions;
`none` when an action fires in a state where it is not enabled. -/
def qrun : List QAct → QState → Option QState
  | [], st => some st
  | a :: rest, st => (qstep a st).bind (qrun rest)

/-- Occurrence count of a batch id in a list. -/
def cnt (b : Nat) : List Nat → Nat
  | [] => 0
  | x :: xs => (if x = b then 1 else 0) + cnt b xs

/-- Contribution of an in-flight, already-sent batch to the delivery
count bookkeeping. -/
def boost (st : QState) (b : Nat) : Nat :=
  match st.inflight with
  | some (c, true) => if c = b then 1 else 0
  | _ => 0

/-! ## Helper lemmas -/

lemma validateEndpoints_isSome_iff (l : List EndpointConfig) :
    (validateEndpoints l).isSome = true ↔
      ∃ e ∈ l, e.BatchCount ≤ 0 ∨ e.FlushFrequency < 1 * secondNs := by
  induction l with
  | nil => simp [validateEndpoints]
  | cons c rest ih =>
    by_cases h1 : c.BatchCount ≤ 0
    · have hv : validateEndpoints (c :: rest) =
          some "batch_count must be greater than 0" := by
        simp [validateEndpoints, h1]
      rw [hv]
      exact iff_of_true rfl ⟨c, List.mem_cons_self c rest, Or.inl h1⟩
    · by_cases h2 : c.FlushFrequency < 1 * secondNs
      · have hv : validateEndpoints (c :: rest) =
            some "flush_frequency must be greater or equal to 1s, the internal timers resolution is 1s" := by
          simp only [validateEndpoints]
          rw [if_neg h1, if_pos h2]
        rw [hv]
        exact iff_of_true rfl ⟨c, List.mem_cons_self c rest, Or.inr h2⟩
      · simp only [validateEndpoints, h1, if_false, h2, ih, List.mem_cons]
        constructor
        · rintro ⟨e, he, hbad⟩
          exact ⟨e, Or.inr he, hbad⟩
        · rintro ⟨e, he | he, hbad⟩
          · subst he
            rcases hbad with hb | hb
            · exact absurd hb h1
            · exact absurd hb h2
          · exact ⟨e, he, hbad⟩

lemma appendStep_stale (ttl now : Int) (st : PipeState) (s : Sample)
    (h : s.ts < now - ttl) :
    appendStep ttl now st s = (st, .Dropped .StaleSample) := by
  have hcond : ¬(now - ttl ≤ s.ts ∧ s.ts ≤ now) := fun hc => absurd h (not_lt.mpr hc.1)
  simp only [appendStep, appendCheck]
  rw [if_neg hcond]

lemma appendStep_accepted_iff (ttl now : Int) (st : PipeState) (s : Sample) :
    (appendStep ttl now st s).2 = .Accepted ↔ now - ttl ≤ s.ts ∧ s.ts ≤ now := by
  by_cases h : now - ttl ≤ s.ts ∧ s.ts ≤ now
  · simp only [appendStep, appendCheck]
    rw [if_pos h]
    simpa using h
  · simp only [appendStep, appendCheck]
    rw [if_neg h]
    simpa using h

lemma prun_keeps_absent (ttl : Int) (s : Sample) :
    ∀ (events : List PEvent) (st : PipeState),
      allStaleFor ttl s events = true →
      s ∉ st.buffer → (∀ b ∈ st.persisted, s ∉ b) →
      s ∉ (prun ttl events st).buffer ∧
        ∀ b ∈ (prun ttl events st).persisted, s ∉ b := by
  intro events
  induction events with
  | nil => exact fun st _ hb hp => ⟨hb, hp⟩
  | cons e rest ih =>
    intro st hstale hb hp
    cases e with
    | append t s' =>
      simp only [allStaleFor, Bool.and_eq_true] at hstale
      obtain ⟨hhead, htail⟩ := hstale
      by_cases hss : s' = s
      · rw [if_pos hss] at hhead
        have hst : s.ts < t - ttl := of_decide_eq_true hhead
        have hst' : s'.ts < t - ttl := by rw [hss]; exact hst
        have hsame : pstep ttl st (.append t s') = st := by
          simp [pstep, appendStep_stale ttl t st s' hst']
        have hgoal : prun ttl (PEvent.append t s' :: rest) st = prun ttl rest st := by
          show prun ttl rest (pstep ttl st (.append t s')) = prun ttl rest st
          rw [hsame]
        rw [hgoal]
        exact ih st htail hb hp
      · have hstep : s ∉ (pstep ttl st (.append t s')).buffer ∧
            ∀ b ∈ (pstep ttl st (.append t s')).persisted, s ∉ b := by
          simp only [pstep, appendStep]
          cases hc : appendCheck ttl t s' with
          | Accepted =>
            refine ⟨?_, hp⟩
            simp only [List.mem_append, List.mem_singleton]
            rintro (hmem | hmem)
            · exact hb hmem
            · exact hss hmem.symm
          | Dropped r => exact ⟨hb, hp⟩
        exact ih _ htail hstep.1 hstep.2
    | sealBatch =>
      have hstep : s ∉ (pstep ttl st .sealBatch).buffer ∧
          ∀ b ∈ (pstep ttl st .sealBatch).persisted, s ∉ b := by
        refine ⟨by simp [pstep], fun b hbmem => ?_⟩
        simp only [pstep, List.mem_append, List.mem_singleton] at hbmem
        rcases hbmem with hbmem | hbmem
        · exact hp b hbmem
        · subst hbmem; exact hb
      exact ih _ (by simpa [allStaleFor] using hstale) hstep.1 hstep.2

lemma cnt_append (b : Nat) (l1 l2 : List Nat) :
    cnt b (l1 ++ l2) = cnt b l1 + cnt b l2 := by
  induction l1 with
  | nil => simp [cnt]
  | cons x xs ih => simp [cnt, ih]; omega

lemma qstep_ge (b N : Nat) (a : QAct) (st st' : QState)
    (h : qstep a st = some st')
    (inv : N + boost st b ≤ cnt b st.delivered + cnt b st.queued) :
    N + boost st' b ≤ cnt b st'.delivered + cnt b st'.queued := by
  obtain ⟨q, inf, del⟩ := st
  cases a with
  | deq =>
    match inf, q with
    | some p, _ => simp [qstep] at h
    | none, [] => simp [qstep] at h
    | none, x :: xs =>
      simp only [qstep, Option.some_inj] at h
      subst h
      simpa [boost] using inv
  | send =>
    match inf with
    | none => simp [qstep] at h
    | some (c, true) => simp [qstep] at h
    | some (c, false) =>
      simp only [qstep, Option.some_inj] at h
      subst h
      simp only [boost, cnt_append] at inv ⊢
      by_cases hcb : c = b <;> simp [cnt, hcb] at inv ⊢ <;> omega
  | ack =>
    match inf, q with
    | none, _ => simp [qstep] at h
    | some (c, false), _ => simp [qstep] at h
    | some (c, true), [] => simp [qstep] at h
    | some (c, true), x :: xs =>
      simp only [qstep] at h
      split at h
      · next hcx =>
        simp only [Option.some_inj] at h
        subst h
        subst hcx
        simp only [boost, cnt] at inv ⊢
        by_cases hcb : c = b <;> simp [hcb] at inv ⊢ <;> omega
      · exact absurd h (by simp)
  | crash =>
    simp only [qstep, Option.some_inj] at h
    subst h
    simp only [boost] at inv ⊢
    have hnn : (0 : Nat) ≤ match inf with
        | some (c, true) => if c = b then 1 else 0
        | _ => 0 := Nat.zero_le _
    omega

lemma qstep_eq (b N : Nat) (a : QAct) (st st' : QState)
    (h : qstep a st = some st') (hne : a ≠ .crash)
    (inv : cnt b st.delivered + cnt b st.queued = N + boost st b) :
    cnt b st'.delivered + cnt b st'.queued = N + boost st' b := by
  obtain ⟨q, inf, del⟩ := st
  cases a with
  | deq =>
    match inf, q with
    | some p, _ => simp [qstep] at h
    | none, [] => simp [qstep] at h
    | none, x :: xs =>
      simp only [qstep, Option.some_inj] at h
      subst h
      simpa [boost] using inv
  | send =>
    match inf with
    | none => simp [qstep] at h
    | some (c, true) => simp [qstep] at h
    | some (c, false) =>
      simp only [qstep, Option.some_inj] at h
      subst h
      simp only [boost, cnt_append] at inv ⊢
      by_cases hcb : c = b <;> simp [cnt, hcb] at inv ⊢ <;> omega
  | ack =>
    match inf, q with
    | none, _ => simp [qstep] at h
    | some (c, false), _ => simp [qstep] at h
    | some (c, true), [] => simp [qstep] at h
    | some (c, true), x :: xs =>
      simp only [qstep] at h
      split at h
      · next hcx =>
        simp only [Option.some_inj] at h
        subst h
        subst hcx
        simp only [boost, cnt] at inv ⊢
        by_cases hcb : c = b <;> simp [hcb] at inv ⊢ <;> omega
      · exact absurd h (by simp)
  | crash => exact absurd rfl hne

lemma qrun_ge (b N : Nat) :
    ∀ (acts : List QAct) (st final : QState),
      qrun acts st = some final →
      N + boost st b ≤ cnt b st.delivered + cnt b st.queued →
      N + boost final b ≤ cnt b final.delivered + cnt b final.queued := by
  intro acts
  induction acts with
  | nil =>
    intro st final h hi
    simp only [qrun, Option.some_inj] at h
    subst h
    exact hi
  | cons a rest ih =>
    intro st final h hi
    simp only [qrun] at h
    cases hstep : qstep a st with
    | none => rw [hstep] at h; simp at h
    | some st1 =>
      rw [hstep] at h
      simp only [Option.some_bind] at h
      exact ih st1 final h (qstep_ge b N a st st1 hstep hi)

lemma qrun_eq (b N : Nat) :
    ∀ (acts : List QAct) (st final : QState),
      qrun acts st = some final →
      QAct.crash ∉ acts →
      cnt b st.delivered + cnt b st.queued = N + boost st b →
      cnt b final.delivered + cnt b final.queued = N + boost final b := by
  intro acts
  induction acts with
  | nil =>
    intro st final h _ hi
    simp only [qrun, Option.some_inj] at h
    subst h
    exact hi
  | cons a rest ih =>
    intro st final h hnc hi
    simp only [qrun] at h
    cases hstep : qstep a st with
    | none => rw [hstep] at h; simp at h
    | some st1 =>
      rw [hstep] at h
      simp only [Option.some_bind] at h
      have hane : a ≠ .crash := fun ha => hnc (ha ▸ List.mem_cons_self a rest)
      have hrnc : QAct.crash ∉ rest := fun hr => hnc (List.mem_cons_of_mem a hr)
      exact ih st1 final h hrnc (qstep_eq b N a st st1 hstep hane hi)

/-! ## Claim theorems -/

/-- C1: `Validate` returns an error exactly when some configured endpoint has
`batch_count <= 0` or `flush_frequency < 1s`, and a validation error is fatal
at startup — the engine does not start. -/
theorem validate_rejects_iff (r : Arguments) :
    ((r.Validate).isSome = true ↔
      ∃ e ∈ r.Endpoints, e.BatchCount ≤ 0 ∨ e.FlushFrequency < 1 * secondNs) ∧
    ((r.Validate).isSome = true → engineStarts r = false) := by
  refine ⟨validateEndpoints_isSome_iff r.Endpoints, fun h => ?_⟩
  simp only [engineStarts, Option.isNone_eq_false_iff]
  exact Option.isSome_iff_exists.mp h |>.elim fun msg hm => by simp [Option.isSome_iff_exists, hm]

/-- C1 witness: a configuration with `batch_count = 0` is rejected and the
engine does not start, and likewise for `flush_frequency = 500ms`. -/
theorem validate_rejects_iff_witness :
    engineStarts
      { TTL := 0, Serialization := { MaxSignalsToBatch := 0, BatchFrequency := 0 },
        Endpoints := [{ defaultEndpointConfig with BatchCount := 0 }] } = false ∧
    engineStarts
      { TTL := 0, Serialization := { MaxSignalsToBatch := 0, BatchFrequency := 0 },
        Endpoints := [{ defaultEndpointConfig with FlushFrequency := 500000000 }] } = false :=
  ⟨(validate_rejects_iff _).2 (by decide), (validate_rejects_iff _).2 (by decide)⟩

/-- C2: the defaults produced by `SetToDefault` for `Arguments` and for
`EndpointConfig` are exactly the spec's values: ttl 2h, max_signals_to_batch
10000, batch_frequency 5s, write_timeout 30s, retry_backoff 1s,
max_retry_backoff_attempts 0, batch_count 1000, flush_frequency 1s,
queue_count 4 (durations in nanoseconds). -/
theorem defaults_exact (a : Arguments) (e : EndpointConfig) :
    (a.SetToDefault).TTL = 7200000000000 ∧
    (a.SetToDefault).Serialization.MaxSignalsToBatch = 10000 ∧
    (a.SetToDefault).Serialization.BatchFrequency = 5000000000 ∧
    (e.SetToDefault).Timeout = 30000000000 ∧
    (e.SetToDefault).RetryBackoff = 1000000000 ∧
    (e.SetToDefault).MaxRetryBackoffAttempts = 0 ∧
    (e.SetToDefault).BatchCount = 1000 ∧
    (e.SetToDefault).FlushFrequency = 1000000000 ∧
    (e.SetToDefault).QueueCount = 4 := by
  refine ⟨?_, ?_, ?_, ?_, ?_, ?_, ?_, ?_, ?_⟩ <;>
    norm_num [Arguments.SetToDefault, EndpointConfig.SetToDefault, defaultArgs,
      defaultEndpointConfig, hourNs, secondNs]

/-- C4: the secret wrapper is a distinct redacted type — its default
string conversion / debug formatting is independent of the wrapped value
(so it never reveals it, and is the constant redaction marker), the value is
recovered only through the explicit `reveal` accessor, which is what the
send-side conversion in `ToNativeType` uses. -/
theorem secret_redacted (cc : EndpointConfig) (ua : String) (ba : BasicAuth) :
    (∀ s1 s2 : Secret, s1.display = s2.display) ∧
    (∀ s : Secret, s.display = "(secret)") ∧
    (∀ v : String, (Secret.mk v).reveal = v) ∧
    (cc.BasicAuth = some ba →
      (cc.ToNativeType ua).BasicAuth =
        some { Username := ba.Username, Password := ba.Password.reveal }) := by
  refine ⟨fun _ _ => rfl, fun _ => rfl, fun _ => rfl, fun h => ?_⟩
  simp [EndpointConfig.ToNativeType, h]

/-- C4 witness: concrete secret handling — redacted display, accessor
recovery, and the send-side conversion for a concrete endpoint. -/
theorem secret_redacted_witness :
    ({ defaultEndpointConfig with
        BasicAuth := some { Username := "u", Password := ⟨"pw"⟩ } } :
          EndpointConfig).BasicAuth = some { Username := "u", Password := ⟨"pw"⟩ } ∧
    (({ defaultEndpointConfig with
        BasicAuth := some { Username := "u", Password := ⟨"pw"⟩ } } :
          EndpointConfig).ToNativeType "ua").BasicAuth =
      some { Username := "u", Password := "pw" } :=
  ⟨rfl,
    (secret_redacted
      { defaultEndpointConfig with
          BasicAuth := some { Username := "u", Password := ⟨"pw"⟩ } }
      "ua" { Username := "u", Password := ⟨"pw"⟩ }).2.2.2 rfl⟩

/-- C5 counterexample: `ToNativeType` is not determined by the
`EndpointConfig` alone — with the package-level mutable `UserAgent` global
(the explicit `userAgent` argument here) set to two different values, the
same `EndpointConfig` yields two different native configurations. -/
theorem useragent_not_config_determined :
    EndpointConfig.ToNativeType defaultEndpointConfig "Alloy/v1.0" ≠
      EndpointConfig.ToNativeType defaultEndpointConfig "Alloy/v2.0" := by
  decide

/-- C5 amended: the user-agent on the native configuration comes from the
package-level global `UserAgent`, not from a per-endpoint field: the result
equals the global's current value, and changing the global changes the
result of `ToNativeType` for the very same `EndpointConfig`. -/
theorem useragent_from_global (cc : EndpointConfig) (ua : String) :
    (cc.ToNativeType ua).UserAgent = ua ∧
    (∀ ua', ua' ≠ ua → cc.ToNativeType ua' ≠ cc.ToNativeType ua) := by
  have hfield : ∀ u : String, (cc.ToNativeType u).UserAgent = u := by
    intro u
    cases h : cc.BasicAuth <;> simp [EndpointConfig.ToNativeType, h]
  refine ⟨hfield ua, fun ua' hne heq => hne ?_⟩
  have := congrArg ConnectionConfig.UserAgent heq
  rwa [hfield, hfield] at this

/-- C5 amended witness: concrete instance of the global-dependence
property. -/
theorem useragent_from_global_witness :
    (defaultEndpointConfig.ToNativeType "Alloy/vA").UserAgent = "Alloy/vA" ∧
    defaultEndpointConfig.ToNativeType "Alloy/vB" ≠
      defaultEndpointConfig.ToNativeType "Alloy/vA" :=
  ⟨(useragent_from_global defaultEndpointConfig "Alloy/vA").1,
    (useragent_from_global defaultEndpointConfig "Alloy/vA").2 "Alloy/vB" (by decide)⟩

/-- C6: the optional `basic_auth` block maps structurally through
`ToNativeType` — the native `BasicAuth` is `none` exactly when the endpoint's
is, a present block carries the same username and the password's revealed
string, and the default configuration has no basic auth. -/
theorem basicauth_structural (cc : EndpointConfig) (ua : String) :
    ((cc.ToNativeType ua).BasicAuth = none ↔ cc.BasicAuth = none) ∧
    (∀ ba, cc.BasicAuth = some ba →
      (cc.ToNativeType ua).BasicAuth =
        some { Username := ba.Username, Password := ba.Password.reveal }) ∧
    defaultEndpointConfig.BasicAuth = none := by
  refine ⟨?_, fun ba h => by simp [EndpointConfig.ToNativeType, h], rfl⟩
  cases h : cc.BasicAuth <;> simp [EndpointConfig.ToNativeType, h]

/-- C6 witness: concrete present and absent basic-auth blocks map as
stated. -/
theorem basicauth_structural_witness :
    ((defaultEndpointConfig.ToNativeType "ua").BasicAuth = none ↔
      defaultEndpointConfig.BasicAuth = none) ∧
    (({ defaultEndpointConfig with
        BasicAuth := some { Username := "alice", Password := ⟨"s3cret"⟩ } } :
          EndpointConfig).ToNativeType "ua").BasicAuth =
      some { Username := "alice", Password := "s3cret" } :=
  ⟨(basicauth_structural defaultEndpointConfig "ua").1,
    (basicauth_structural
      { defaultEndpointConfig with
          BasicAuth := some { Username := "alice", Password := ⟨"s3cret"⟩ } }
      "ua").2.1 { Username := "alice", Password := ⟨"s3cret"⟩ } rfl⟩

/-- C7: the TTL filter at append time — an append is accepted exactly when
the sample timestamp lies within the window from `now - ttl` to `now`; a
sample older than `now - ttl` is dropped as `StaleSample`, leaves the shard
state untouched, and a sample that is stale at each of its append attempts
never appears in any persisted batch of a run started from the empty
state. -/
theorem append_ttl_filter (ttl now : Int) (st : PipeState) (s : Sample)
    (events : List PEvent) (h : s.ts < now - ttl)
    (hall : allStaleFor ttl s events = true) :
    ((appendStep ttl now st s).2 = AppendResult.Dropped DropReason.StaleSample ∧
      (appendStep ttl now st s).1 = st) ∧
    (∀ now' st' s', (appendStep ttl now' st' s').2 = AppendResult.Accepted ↔
      now' - ttl ≤ Sample.ts s' ∧ Sample.ts s' ≤ now') ∧
    ∀ b ∈ (prun ttl events { buffer := [], persisted := [] }).persisted, s ∉ b := by
  refine ⟨?_, fun now' st' s' => appendStep_accepted_iff ttl now' st' s', ?_⟩
  · rw [appendStep_stale ttl now st s h]
    exact ⟨rfl, rfl⟩
  · exact (prun_keeps_absent ttl s events ⟨[], []⟩ hall (by simp) (by simp)).2

/-- C7 witness: with ttl 10 at time 100, the sample with timestamp 5 is
stale; its append is dropped as `StaleSample` and it is absent from the
sole batch persisted by a run that tries to append it and then seals. -/
theorem append_ttl_filter_witness :
    ((5 : Int) < 100 - 10) ∧
    allStaleFor 10 ⟨0, 5⟩ [PEvent.append 100 ⟨0, 5⟩, PEvent.sealBatch] = true ∧
    (appendStep 10 100 { buffer := [], persisted := [] } ⟨0, 5⟩).2 =
      AppendResult.Dropped DropReason.StaleSample ∧
    (⟨0, 5⟩ : Sample) ∉ ([] : List Sample) :=
  ⟨by decide, by decide,
    (append_ttl_filter 10 100 ⟨[], []⟩ ⟨0, 5⟩
      [PEvent.append 100 ⟨0, 5⟩, PEvent.sealBatch] (by decide) (by decide)).1.1,
    (append_ttl_filter 10 100 ⟨[], []⟩ ⟨0, 5⟩
      [PEvent.append 100 ⟨0, 5⟩, PEvent.sealBatch] (by decide) (by decide)).2.2
      [] (by decide)⟩

/-- C3: at-least-once delivery per (shard, endpoint) pipeline — every run of
the delivery machine that drains the durable queue delivers each enqueued
batch at least once, and in a crash-free run exactly once, so duplicates can
arise only from a crash between send and acknowledgment.  Each configured
endpoint owns an independent instance of this machine fed the same batches
(spec §4.6), so the statement applies to every endpoint. -/
theorem delivery_at_least_once (acts : List QAct) (init : List Nat) (final : QState)
    (hrun : qrun acts { queued := init, inflight := none, delivered := [] } = some final)
    (hq : final.queued = []) (hf : final.inflight = none) :
    (∀ b, cnt b init ≤ cnt b final.delivered) ∧
    (QAct.crash ∉ acts → ∀ b, cnt b final.delivered = cnt b init) := by
  constructor
  · intro b
    have h0 : cnt b init +
        boost { queued := init, inflight := none, delivered := ([] : List Nat) } b ≤
        cnt b ([] : List Nat) + cnt b init := by
      simp [boost, cnt]
    have hfin := qrun_ge b (cnt b init) acts _ final hrun h0
    simp only [boost] at hfin
    rw [hf, hq] at hfin
    simp only [cnt] at hfin
    omega
  · intro hcf b
    have h0 : cnt b ([] : List Nat) + cnt b init = cnt b init +
        boost { queued := init, inflight := none, delivered := ([] : List Nat) } b := by
      simp [boost, cnt]
    have hfin := qrun_eq b (cnt b init) acts _ final hrun hcf h0
    simp only [boost] at hfin
    rw [hf, hq] at hfin
    simp only [cnt] at hfin
    omega

/-- C3 witness: batch 7, enqueued once, is delivered twice in a run that
crashes between send and ack (at least once), and exactly once in the
crash-free run. -/
theorem delivery_at_least_once_witness :
    cnt 7 [7] ≤ cnt 7 [7, 7] ∧ cnt 7 [7] = cnt 7 [7] :=
  ⟨(delivery_at_least_once
      [QAct.deq, QAct.send, QAct.crash, QAct.deq, QAct.send, QAct.ack] [7]
      { queued := [], inflight := none, delivered := [7, 7] }
      (by decide) rfl rfl).1 7,
    (delivery_at_least_once [QAct.deq, QAct.send, QAct.ack] [7]
      { queued := [], inflight := none, delivered := [7] }
      (by decide) rfl rfl).2 (by decide) 7⟩

/-- C8: `ToNativeType` carries URL, Timeout, RetryBackoff,
MaxRetryBackoffAttempts, BatchCount, FlushFrequency and ExternalLabels over
unchanged, sets `Connections` to `QueueCount`, and ignores the endpoint's
`Name` label (two configs differing only in `Name` map to the same native
configuration). -/
theorem tonative_carries_fields (cc : EndpointConfig) (ua : String) :
    (cc.ToNativeType ua).URL = cc.URL ∧
    (cc.ToNativeType ua).Timeout = cc.Timeout ∧
    (cc.ToNativeType ua).RetryBackoff = cc.RetryBackoff ∧
    (cc.ToNativeType ua).MaxRetryBackoffAttempts = cc.MaxRetryBackoffAttempts ∧
    (cc.ToNativeType ua).BatchCount = cc.BatchCount ∧
    (cc.ToNativeType ua).FlushFrequency = cc.FlushFrequency ∧
    (cc.ToNativeType ua).ExternalLabels = cc.ExternalLabels ∧
    (cc.ToNativeType ua).Connections = cc.QueueCount ∧
    (∀ nm, ({ cc with Name := nm } : EndpointConfig).ToNativeType ua =
      cc.ToNativeType ua) := by
  cases h : cc.BasicAuth <;>
    refine ⟨?_, ?_, ?_, ?_, ?_, ?_, ?_, ?_, fun nm => ?_⟩ <;>
      simp [EndpointConfig.ToNativeType, h]

/-- C9: `SetToDefault` replaces the whole `Arguments` value with the default
configuration, so any previously configured endpoints are discarded. -/
theorem settodefault_replaces (a : Arguments) :
    a.SetToDefault = defaultArgs ∧ (a.SetToDefault).Endpoints = [] :=
  ⟨rfl, rfl⟩

/-- C10: `Validate` does not modify the `Arguments` it checks — the state
component of its effect is the input, every field included, whatever the
verdict is. -/
theorem validate_frame (r : Arguments) :
    (r.ValidateSt).1 = r ∧
    (r.ValidateSt).1.TTL = r.TTL ∧
    (r.ValidateSt).1.Serialization = r.Serialization ∧
    (r.ValidateSt).1.Endpoints = r.Endpoints ∧
    (r.ValidateSt).2 = r.Validate :=
  ⟨rfl, rfl, rfl, rfl, rfl⟩

end Queue
